import Mathlib

/-!
# TaskDroid — verification of the control-loop core

Shallow embedding of the TaskDroid agent core (`src/task_droid`) and proofs of
the frozen claims about it.  Python strings are modelled as `List Char`, regex
based section extraction as explicit scanning functions, the settings lookup as
a walk over a nested configuration value, and the navigator round loop as a
fuel-indexed transition function over an oracle of per-round environment
inputs (device capture results and model responses).
-/

set_option maxRecDepth 4096

namespace TaskDroid

/-! ## Python string primitives (`List Char` model, ASCII character classes) -/

abbrev PyStr := List Char

/-- Python `str.isspace`-style whitespace set used by `\s` and `str.strip()`. -/
def isPySpace (c : Char) : Bool :=
  c = ' ' ∨ c = '\t' ∨ c = '\n' ∨ c = '\r' ∨ c = '\x0b' ∨ c = '\x0c'

/-- Regex `\w` word character (ASCII fragment). -/
def isWordChar (c : Char) : Bool :=
  ('a' ≤ c ∧ c ≤ 'z') ∨ ('A' ≤ c ∧ c ≤ 'Z') ∨ ('0' ≤ c ∧ c ≤ '9') ∨ c = '_'

/-- ASCII decimal digit, the fragment of Python `str.isdigit` used here. -/
def isDigitChar (c : Char) : Bool := '0' ≤ c ∧ c ≤ '9'

/-- ASCII letter or digit, the fragment of Python `str.isalnum` used here. -/
def isAlnumChar (c : Char) : Bool :=
  ('a' ≤ c ∧ c ≤ 'z') ∨ ('A' ≤ c ∧ c ≤ 'Z') ∨ ('0' ≤ c ∧ c ≤ '9')

/-- ASCII `str.lower` on one character. -/
def toLowerChar : Char → Char
  | 'A' => 'a' | 'B' => 'b' | 'C' => 'c' | 'D' => 'd' | 'E' => 'e' | 'F' => 'f'
  | 'G' => 'g' | 'H' => 'h' | 'I' => 'i' | 'J' => 'j' | 'K' => 'k' | 'L' => 'l'
  | 'M' => 'm' | 'N' => 'n' | 'O' => 'o' | 'P' => 'p' | 'Q' => 'q' | 'R' => 'r'
  | 'S' => 's' | 'T' => 't' | 'U' => 'u' | 'V' => 'v' | 'W' => 'w' | 'X' => 'x'
  | 'Y' => 'y' | 'Z' => 'z' | c => c

/-- ASCII `str.upper` on one character. -/
def toUpperChar : Char → Char
  | 'a' => 'A' | 'b' => 'B' | 'c' => 'C' | 'd' => 'D' | 'e' => 'E' | 'f' => 'F'
  | 'g' => 'G' | 'h' => 'H' | 'i' => 'I' | 'j' => 'J' | 'k' => 'K' | 'l' => 'L'
  | 'm' => 'M' | 'n' => 'N' | 'o' => 'O' | 'p' => 'P' | 'q' => 'Q' | 'r' => 'R'
  | 's' => 'S' | 't' => 'T' | 'u' => 'U' | 'v' => 'V' | 'w' => 'W' | 'x' => 'X'
  | 'y' => 'Y' | 'z' => 'Z' | c => c

def pyLower (s : PyStr) : PyStr := s.map toLowerChar

def pyUpper (s : PyStr) : PyStr := s.map toUpperChar

/-- Strip characters satisfying `P` from both ends (Python `str.strip(chars)`). -/
def stripBothP (P : Char → Bool) (s : PyStr) : PyStr :=
  ((s.dropWhile P).reverse.dropWhile P).reverse

/-- Python `str.strip()` (no argument): strip whitespace from both ends. -/
def pyStrip (s : PyStr) : PyStr := stripBothP isPySpace s

/-- Python `str.split(sep)` for a single-character separator. -/
def pySplit (sep : Char) : PyStr → List PyStr
  | [] => [[]]
  | c :: t =>
    if c = sep then [] :: pySplit sep t
    else
      match pySplit sep t with
      | [] => [[c]]
      | h :: r => (c :: h) :: r

/-- Everything after the first occurrence of `sep` (Python `s.split(sep, 1)[1]`);
returns `s` unchanged when `sep` is absent (caller guards on containment). -/
def afterFirst (sep : Char) : PyStr → PyStr
  | [] => []
  | c :: t => if c = sep then t else afterFirst sep t

/-- Case-insensitive prefix test; the pattern is given pre-lowercased. -/
def ciStartsWith : PyStr → PyStr → Bool
  | [], _ => true
  | _ :: _, [] => false
  | p :: ps, c :: cs => toLowerChar c = p && ciStartsWith ps cs

/-- Index of the first case-insensitive occurrence of `pat` (regex
`re.search` with `re.IGNORECASE` for a literal pattern). -/
def findCISub (pat : PyStr) : PyStr → Option Nat
  | [] => if pat.isEmpty then some 0 else none
  | c :: t =>
    if ciStartsWith pat (c :: t) then some 0
    else (findCISub pat t).map (· + 1)

/-- Case-sensitive substring test (Python `sub in s`). -/
def containsSub (pat : PyStr) : PyStr → Bool
  | [] => pat.isEmpty
  | c :: t => List.isPrefixOf pat (c :: t) || containsSub pat t

/-- Nonempty and all ASCII digits (Python `str.isdigit` ASCII fragment). -/
def isDigits (s : PyStr) : Bool := !s.isEmpty && s.all isDigitChar

def digitsToNat (s : PyStr) : Nat :=
  s.foldl (fun acc c => acc * 10 + (c.toNat - '0'.toNat)) 0

/-- Python `int(str)`: strip whitespace, optional sign, decimal digits.
(The underscore digit-grouping accepted by CPython is not modelled; no input
in this development uses it.) -/
def pyInt (s : PyStr) : Option Int :=
  let t := pyStrip s
  match t with
  | '+' :: ds => if isDigits ds then some (digitsToNat ds : Int) else none
  | '-' :: ds => if isDigits ds then some (-(digitsToNat ds : Int)) else none
  | ds => if isDigits ds then some (digitsToNat ds : Int) else none

/-- Replace the two-character substring `][` by `,` (Python
`str.replace("][", ",")`, specialised to the bounds syntax). -/
def replaceBrkBrk : PyStr → PyStr
  | ']' :: '[' :: t => ',' :: replaceBrkBrk t
  | c :: t => c :: replaceBrkBrk t
  | [] => []

end TaskDroid

namespace TaskDroid

/-! ## Response parser (`src/task_droid/llm_gateway/response_parser.py`) -/

/-- Parameters of a parsed action: Python `int` or `str`. -/
inductive Param where
  | int : Int → Param
  | str : PyStr → Param
deriving DecidableEq, Repr

/-- The dict returned by `parse_action_response` (keys `thought`,
`action_name`, `action_params`, `summary`; the observation section is parsed
and logged but not returned). -/
structure ParsedAction where
  thought : PyStr
  action_name : PyStr
  action_params : List Param
  summary : PyStr
deriving DecidableEq, Repr

/-- The dict returned by `parse_reflection_response`. -/
structure ReflectionVerdict where
  decision : PyStr
  thought : PyStr
  documentation : PyStr
deriving DecidableEq, Repr

/-- Model of `_extract_section(r"Marker:\s*(.*?)(Stop:|$)", text)`: window from just
after the first case-insensitive occurrence of `marker` up to the first
case-insensitive occurrence of `stop` after it (or end of text), stripped.
`stop = none` models the greedy-to-end patterns `Marker:\s*(.*)`. -/
def extractWindow (marker : PyStr) (stop : Option PyStr) (s : PyStr) : Option PyStr :=
  match findCISub marker s with
  | none => none
  | some i =>
    let rest := s.drop (i + marker.length)
    let window :=
      match stop with
      | none => rest
      | some m =>
        match findCISub m rest with
        | none => rest
        | some j => rest.take j
    some (pyStrip window)

/-- Python `extracted or default` (`None` and the empty string both fall back). -/
def sectDefault (o : Option PyStr) (d : PyStr) : PyStr :=
  match o with
  | none => d
  | some t => if t.isEmpty then d else t

def validDecisions : List PyStr :=
  ["BACK".toList, "CONTINUE".toList, "SUCCESS".toList, "INEFFECTIVE".toList]

/-- Model of `parse_reflection_response` (response_parser.py lines 11-27). -/
def parse_reflection_response (s : PyStr) : Option ReflectionVerdict :=
  match extractWindow "decision:".toList (some "thought:".toList) s,
        extractWindow "thought:".toList (some "documentation:".toList) s with
  | some decision, some thought =>
    if decision.isEmpty || thought.isEmpty then none
    else
      let documentation :=
        sectDefault (extractWindow "documentation:".toList none s) "N/A".toList
      let decision' :=
        if validDecisions.contains (pyUpper decision) then decision
        else "CONTINUE".toList
      some ⟨pyUpper decision', thought, documentation⟩
  | _, _ => none

/-- Leftmost match of `re.search(r"(\w+\(.*\))", s)` at the head position:
a maximal nonempty `\w+` run immediately followed by `(` with some `)` later;
the greedy `.*` extends the capture to the last `)`. -/
def matchCmdAt (l : PyStr) : Option PyStr :=
  let run := l.takeWhile isWordChar
  if run.isEmpty then none
  else
    match l.drop run.length with
    | c :: rest =>
      if c = '(' ∧ rest.contains ')' then
        some (run ++ '(' :: ((rest.reverse.dropWhile (fun x => !(x = ')'))).reverse))
      else none
    | [] => none

/-- Model of `re.search(r"(\w+\(.*\))", s)`: try each start position left to right. -/
def searchCmd : PyStr → Option PyStr
  | [] => none
  | c :: t =>
    match matchCmdAt (c :: t) with
    | some r => some r
    | none => searchCmd t

/-- Model of `re.match(r"(\w+)\s*\((.*)\)", s)`: anchored name run, optional
whitespace, `(`, greedy content up to the last `)`. -/
def matchNameParens (l : PyStr) : Option (PyStr × PyStr) :=
  let run := l.takeWhile isWordChar
  if run.isEmpty then none
  else
    match (l.drop run.length).dropWhile isPySpace with
    | c :: rest =>
      if c = '(' ∧ rest.contains ')' then
        some (run, ((rest.reverse.dropWhile (fun x => !(x = ')'))).drop 1).reverse)
      else none
    | [] => none

/-- Per-argument processing inside `parse_action_response` (lines 81-86):
optional `label:` prefix removal, quote/space stripping, integer coercion
except for `type_text`.  `p` is the already-stripped raw argument. -/
def cleanArg (name : PyStr) (p : PyStr) : Param :=
  let val := if p.contains ':' then pyStrip (afterFirst ':' p) else p
  let valCleaned := stripBothP (fun c => c = ' ' ∨ c = '\'' ∨ c = '"') val
  if name ≠ "type_text".toList ∧ isDigits valCleaned then
    .int (digitsToNat valCleaned : Int)
  else .str valCleaned

/-- Model of `parse_action_response` (response_parser.py lines 45-95). -/
def parse_action_response (s : PyStr) : Option ParsedAction :=
  match findCISub "action:".toList s with
  | none => none
  | some i =>
    -- `re.search(r"Action:\s*(.*)", s, DOTALL)` then `.split('\n')[0].strip()`
    let afterMarker := s.drop (i + 7)
    let actionLine := pyStrip ((afterMarker.dropWhile isPySpace).takeWhile (fun c => !(c = '\n')))
    let cleaned := stripBothP (fun c => c = '`' ∨ c = ' ') actionLine
    let actionStr? : Option PyStr :=
      match searchCmd cleaned with
      | some c => some c
      | none =>
        -- `re.search(r"^(\w+)", cleaned)`
        let run := cleaned.takeWhile isWordChar
        if run.isEmpty then none else some run
    match actionStr? with
    | none => none
    | some actionStr =>
      let thought :=
        sectDefault (extractWindow "thought:".toList (some "action:".toList) s)
          "No thought provided.".toList
      let summary :=
        sectDefault (extractWindow "summary:".toList none s)
          "No summary provided.".toList
      -- the observation section is extracted and logged only; not returned
      match matchNameParens actionStr with
      | some (run, content) =>
        let name := pyLower run
        let paramsStr := pyStrip content
        let rawParams := (pySplit ',' paramsStr).map pyStrip
        some ⟨thought, name, rawParams.map (cleanArg name), summary⟩
      | none =>
        some ⟨thought, pyStrip (pyLower actionStr), [], summary⟩

end TaskDroid

namespace TaskDroid

/-! ## Settings (`src/task_droid/config/settings.py`) -/

/-- A loaded configuration value (nested YAML dicts of scalars). -/
inductive CfgVal where
  | int : Int → CfgVal
  | str : PyStr → CfgVal
  | dict : List (PyStr × CfgVal) → CfgVal
deriving Repr

/-- The dotted-path walk of `get_setting`: `value = value[key]` for each key;
a missing key (`KeyError`) or a non-dict intermediate (`TypeError`) makes the
whole lookup fail, in which case the caller-supplied default is used. -/
def lookupKeys : List PyStr → CfgVal → Option CfgVal
  | [], v => some v
  | k :: ks, .dict entries =>
    match entries.lookup k with
    | some v => lookupKeys ks v
    | none => none
  | _ :: _, _ => none

/-- Model of `get_setting(key_path, default)` (settings.py lines 47-66). -/
def get_setting (cfg : CfgVal) (keyPath : PyStr) (default : CfgVal) : CfgVal :=
  match lookupKeys (pySplit '.' keyPath) cfg with
  | some v => v
  | none => default

/-- Lookup `get_setting` specialised to the integer settings the navigator and UI
parser read (a non-integer configured value would make the Python comparison
sites fail; such configurations are outside this model). -/
def getSettingInt (cfg : CfgVal) (keyPath : PyStr) (default : Int) : Int :=
  match lookupKeys (pySplit '.' keyPath) cfg with
  | some (.int n) => n
  | _ => default

/-! ## UI elements (`src/task_droid/device_interface/elements.py`) -/

/-- The `UIElement` dataclass: `uid`, `bbox`, `attributes` (the `text` field is
never set by `ui_parser.py` and defaults to `""`; `children` is unused). -/
structure UIElement where
  uid : PyStr
  bbox : (Int × Int) × (Int × Int)
  attributes : PyStr
  text : PyStr := []
deriving DecidableEq, Repr

/-! ## UI extractor (`src/task_droid/device_interface/ui_parser.py`) -/

/-- The attributes of one XML node that `ui_parser.py` reads
(`elem.get(...)`; `none` models an absent attribute). -/
structure NodeAttrs where
  clickable : Option PyStr := none
  focusable : Option PyStr := none
  bounds : Option PyStr := none
  resourceId : Option PyStr := none
  cls : Option PyStr := none
  contentDesc : Option PyStr := none
  text : Option PyStr := none
deriving DecidableEq, Repr

mutual
/-- A UI-tree snapshot: the parsed XML hierarchy (a node and its forest of
children, as a mutual pair so traversals are structurally recursive). -/
inductive XTree where
  | node : NodeAttrs → XForest → XTree
deriving DecidableEq
/-- A forest of sibling subtrees. -/
inductive XForest where
  | nil : XForest
  | cons : XTree → XForest → XForest
deriving DecidableEq
end

/-- Build a forest from a list of subtrees (fixture convenience). -/
def XForest.ofList : List XTree → XForest
  | [] => .nil
  | t :: r => .cons t (XForest.ofList r)

mutual
/-- Model of `root.iter()` document (pre)order paired with the `parent_map` lookup:
every node together with its parent's attributes (`none` at the root). -/
def iterWithParent (t : XTree) (parent : Option NodeAttrs) :
    List (NodeAttrs × Option NodeAttrs) :=
  match t with
  | .node a children => (a, parent) :: iterForest children (some a)
/-- Document-order traversal of a forest of siblings. -/
def iterForest (f : XForest) (parent : Option NodeAttrs) :
    List (NodeAttrs × Option NodeAttrs) :=
  match f with
  | .nil => []
  | .cons t rest => iterWithParent t parent ++ iterForest rest parent
end

/-- Model of `bounds.replace("][", ",").replace("[", "").replace("]", "").split(",")`
then `int(...)` on every part, using parts 0-3; any unparsable part
(`ValueError`) or fewer than four parts (`IndexError`) fails. -/
def parseBounds4 (s : PyStr) : Option (Int × Int × Int × Int) :=
  let parts := pySplit ',' ((replaceBrkBrk s).filter (fun c => !(c = '[' ∨ c = ']')))
  match parts.mapM pyInt with
  | some (a :: b :: c :: d :: _) => some (a, b, c, d)
  | _ => none

def searchKws : List PyStr := ["search".toList, "query".toList, "find".toList]

def navKws : List PyStr :=
  ["nav".toList, "navigation".toList, "tab".toList, "toolbar".toList,
   "home".toList, "profile".toList, "menu".toList]

/-- Model of `_generate_element_uid` (ui_parser.py lines 8-52): identifier plus
optional role hint for one node. -/
def generateElementUid (e : NodeAttrs) : PyStr × Option PyStr :=
  let bounds := e.bounds.getD "[0,0][0,0]".toList
  let wh : Int × Int :=
    match parseBounds4 bounds with
    | some (x1, y1, x2, y2) => (x2 - x1, y2 - y1)
    | none => (0, 0)
  let resId := e.resourceId.getD []
  let uid0 :=
    if !resId.isEmpty then
      resId.map (fun c => if c = '/' then '_' else if c = ':' then '.' else c)
    else
      (e.cls.getD "NoClass".toList) ++ '_' :: (toString wh.1).toList
        ++ 'x' :: (toString wh.2).toList
  let contentDesc := e.contentDesc.getD []
  let uid :=
    if !contentDesc.isEmpty ∧ contentDesc.length < 25 then
      let sanitized :=
        (contentDesc.filter (fun c => isAlnumChar c || c = '_' || c = '-')).map
          (fun c => if c = ' ' then '_' else c)
      uid0 ++ '_' :: sanitized
    else uid0
  let text := pyLower (e.text.getD [])
  let elemClass := pyLower (e.cls.getD [])
  let searchSpace := pyLower resId ++ ' ' :: pyLower contentDesc ++ ' ' :: text
  let roleHint : Option PyStr :=
    if searchKws.any (fun kw => containsSub kw searchSpace)
        || containsSub "searchview".toList elemClass then
      some "search_bar".toList
    else if navKws.any (fun kw => containsSub kw searchSpace)
        || containsSub "bottomnavigation".toList elemClass
        || containsSub "tabwidget".toList elemClass then
      some "nav_item".toList
    else none
  (uid, roleHint)

/-- Box-center with Python floor division `// 2`. -/
def centerOfBBox (b : (Int × Int) × (Int × Int)) : Int × Int :=
  ((b.1.1 + b.2.1).fdiv 2, (b.1.2 + b.2.2).fdiv 2)

/-- Manhattan distance `abs(cx - ex) + abs(cy - ey)`. -/
def manhattan (a b : Int × Int) : Int := |a.1 - b.1| + |a.2 - b.2|

/-- The `UIElement` one candidate node would produce, independent of the
already-kept list: `none` when the node is not clickable/focusable, has no
(or an empty) `bounds` attribute, or its bounds fail to parse; otherwise the
element with its parent-prefixed identifier and attribute string
(ui_parser.py lines 76-109, everything except the distance filter). -/
def buildElem (np : NodeAttrs × Option NodeAttrs) : Option UIElement :=
  let e := np.1
  if e.clickable = some "true".toList ∨ e.focusable = some "true".toList then
    match e.bounds with
    | none => none
    | some bs =>
      if bs.isEmpty then none
      else
        match parseBounds4 bs with
        | none => none
        | some (x1, y1, x2, y2) =>
          let (uid0, roleHint) := generateElementUid e
          let uid :=
            match np.2 with
            | some p => (generateElementUid p).1 ++ '.' :: uid0
            | none => uid0
          let attrs :=
            (if e.clickable = some "true".toList then "clickable".toList
             else "focusable".toList)
              ++ (match roleHint with
                  | some r => ',' :: r
                  | none => [])
          some ⟨uid, ((x1, y1), (x2, y2)), attrs, []⟩
  else none

/-- One step of the extraction fold: skip non-candidates, and keep a
candidate only when its box center is at Manhattan distance ≥ `minDist`
from the center of every already-kept element (ui_parser.py lines 85-95;
the identifier generation is pure and independent of the kept list, so
computing it before the distance check is equivalent to the source order). -/
def dedupStep (minDist : Int) (acc : List UIElement) (np : NodeAttrs × Option NodeAttrs) :
    List UIElement :=
  match buildElem np with
  | none => acc
  | some e =>
    if acc.any (fun ex => manhattan (centerOfBBox e.bbox) (centerOfBBox ex.bbox) < minDist) then
      acc
    else acc ++ [e]

/-- The configured minimum element separation (`device.min_element_dist`,
default 20). -/
def minDistOf (cfg : CfgVal) : Int :=
  getSettingInt cfg "device.min_element_dist".toList 20

/-- Model of `extract_interactive_elements` (ui_parser.py lines 54-119) on a parsed
snapshot: walk the tree in document order, filter candidates, greedily
de-duplicate by center distance (`device.min_element_dist`, default 20). -/
def extract_interactive_elements (cfg : CfgVal) (tree : XTree) : List UIElement :=
  (iterWithParent tree none).foldl (dedupStep (minDistOf cfg)) []

end TaskDroid

namespace TaskDroid

/-! ## Action dispatcher (`Navigator._execute_action`, navigator.py 130-165) -/

/-- A device-operator call made by the dispatcher (`DeviceOperator` methods;
`time.sleep` for `wait` is a local delay, recorded as `sleep`). -/
inductive DeviceOp where
  | tap : Int → Int → DeviceOp
  | typeText : PyStr → DeviceOp
  | longPress : Int → Int → DeviceOp
  | swipe : Int → Int → Param → Param → DeviceOp
  | swipeScreen : PyStr → DeviceOp
  | sleep : Int → DeviceOp
  | back : DeviceOp
  | enter : DeviceOp
  | deleteMultiple : Int → DeviceOp
deriving DecidableEq, Repr

/-- Result of `_execute_action`: the returned `(interacted_uid, element_idx)`
pair, the device calls made, whether the `finish` handler set
`task_complete`, and whether an uncaught Python exception escaped
(`IndexError` on a missing positional parameter, `TypeError` on a
non-integer where an integer is consumed). -/
structure ExecResult where
  uid : PyStr
  idx : Int
  ops : List DeviceOp
  setComplete : Bool
  err : Bool
deriving DecidableEq, Repr

/-- The keys of `action_map` (navigator.py lines 137-148). -/
def actionTable : List PyStr :=
  ["tap".toList, "type_text".toList, "long_press".toList, "swipe_element".toList,
   "swipe_screen".toList, "wait".toList, "go_back".toList, "press_enter".toList,
   "delete_multiple".toList, "finish".toList]

/-- Model of `_get_element_center` (navigator.py lines 94-98), given the validated
1-based index. -/
def getElementCenter (i : Int) (elements : List UIElement) : Int × Int :=
  match elements[(i - 1).toNat]? with
  | some e => centerOfBBox e.bbox
  | none => (0, 0)

def skipExec : ExecResult := ⟨[], -1, [], false, false⟩

def errExec : ExecResult := ⟨[], -1, [], false, true⟩

/-- The `action_map` handler bodies (navigator.py lines 137-148), invoked
after index validation.  `typeText` with an integer parameter reaches
`DeviceOperator.type_text`, whose `text.replace` raises on an `int`;
`wait`/`delete_multiple`/`swipe_screen` consume their first parameter as an
`int`/`int`/`str` respectively and raise on the other shape or on a missing
parameter. -/
def runHandler (name : PyStr) (params : List Param) (elements : List UIElement) :
    ExecResult → ExecResult := fun base =>
  if name = "tap".toList then
    match params.head? with
    | some (.int i) =>
      { base with ops := [.tap (getElementCenter i elements).1 (getElementCenter i elements).2] }
    | _ => errExec
  else if name = "type_text".toList then
    match params.head? with
    | some (.str s) => { base with ops := [.typeText s] }
    | _ => errExec
  else if name = "long_press".toList then
    match params.head? with
    | some (.int i) =>
      { base with ops := [.longPress (getElementCenter i elements).1 (getElementCenter i elements).2] }
    | _ => errExec
  else if name = "swipe_element".toList then
    match params with
    | .int i :: p1 :: p2 :: _ =>
      { base with ops := [.swipe (getElementCenter i elements).1 (getElementCenter i elements).2 p1 p2] }
    | _ => errExec
  else if name = "swipe_screen".toList then
    match params.head? with
    | some (.str d) => { base with ops := [.swipeScreen d] }
    | _ => errExec
  else if name = "wait".toList then
    match params.head? with
    | some (.int n) => { base with ops := [.sleep n] }
    | _ => errExec
  else if name = "go_back".toList then { base with ops := [.back] }
  else if name = "press_enter".toList then { base with ops := [.enter] }
  else if name = "delete_multiple".toList then
    match params.head? with
    | some (.int n) => { base with ops := [.deleteMultiple n] }
    | _ => errExec
  else if name = "finish".toList then { base with setComplete := true }
  else base

/-- Model of `Navigator._execute_action` (navigator.py lines 130-165): empty-parameter
`type_text` skip, table lookup, 1-based index validation for the element
actions (empty element list or out-of-range index is a logged skip, a
missing or non-integer index raises), then the handler call.  Unknown
action names log an error and return `("", -1)` with no device call. -/
def execute_action (name : PyStr) (params : List Param) (elements : List UIElement) :
    ExecResult :=
  if name = "type_text".toList ∧ params = [] then skipExec
  else if actionTable.contains name then
    if name = "tap".toList ∨ name = "long_press".toList ∨ name = "swipe_element".toList then
      if elements.isEmpty then skipExec
      else
        match params.head? with
        | none => errExec
        | some (.str _) => errExec
        | some (.int i) =>
          if 1 ≤ i ∧ i ≤ (elements.length : Int) then
            match elements[(i - 1).toNat]? with
            | some e => runHandler name params elements ⟨e.uid, i, [], false, false⟩
            | none => errExec
          else skipExec
    else runHandler name params elements ⟨[], -1, [], false, false⟩
  else skipExec

end TaskDroid

namespace TaskDroid

/-! ## Control loop (`Navigator.run`, navigator.py lines 184-335)

The loop state holds the fields of `Navigator` the loop mutates (the round
counter is carried by the loop function itself: the source modifies it only
at the single `self.round_count += 1` at the top of each iteration).  Each
iteration consults the environment through a `RoundInput` oracle entry:
the outcome of this round's screen/dump capture and element extraction, the
action-model call, and the reflection pass's capture and model call.
`_reflect_and_document` mutates none of the loop-state fields; its only
device call is `back()` on a `BACK` verdict, recorded in `reflOps`. -/

structure LoopSt where
  task_complete : Bool
  grid_mode : Bool
  sub_goal_index : Nat
  last_action_summary : PyStr
deriving DecidableEq, Repr

/-- Environment outcomes for one round (all external collaborators). -/
structure RoundInput where
  captureOk : Bool
  elements : List UIElement
  modelOk : Bool
  response : PyStr
  afterCaptureOk : Bool
  reflModelOk : Bool
  reflResponse : PyStr
deriving DecidableEq, Repr

/-- How a round body ends: fall through / `continue`, `break`, or an
uncaught exception escaping the loop (`IndexError` during dispatch, the
`AttributeError` at the undefined `image_utils.draw_grid` in a grid-mode
round, or the `KeyError` at `APP_EXPLORATION_PROMPT.format` in an
exploration-mode labeled round). -/
inductive RoundExit where
  | cont : RoundExit
  | brk : RoundExit
  | fault : RoundExit
deriving DecidableEq, Repr

structure RoundResult where
  st : LoopSt
  exit : RoundExit
  dispatched : Option ExecResult
  reflOps : List DeviceOp
deriving DecidableEq, Repr

/-- The reflection pass (navigator.py lines 319-323 and 167-180): runs only
for action names outside `[finish, wait, grid, subgoal_complete]` and only
when the after-screenshot capture succeeds; a parsed `BACK` verdict calls
`device_op.back()`.  Documentation writing touches no loop state. -/
def reflectionOps (actionName : PyStr) (inp : RoundInput) : List DeviceOp :=
  if actionName = "finish".toList ∨ actionName = "wait".toList
      ∨ actionName = "grid".toList ∨ actionName = "subgoal_complete".toList then []
  else if !inp.afterCaptureOk then []
  else if !inp.reflModelOk then []
  else
    match parse_reflection_response inp.reflResponse with
    | some v => if v.decision = "BACK".toList then [.back] else []
    | none => []

/-- The round body after screen state is available (navigator.py lines
240-323): sub-goal management, then prompt building, model call, parse,
meta-actions, dispatch and reflection.  Two prompt paths fault before any
model call, with uncaught exceptions that end the run:
a grid-mode round calls `image_utils.draw_grid` (line 255), a function that
does not exist in `image_utils.py` (`AttributeError`; behind it, line 256
formats `TASK_EXECUTION_GRID_PROMPT`, whose `task_description` placeholder
is not among the arguments, and line 261 references the equally undefined
`response_parser.parse_grid_response`); an exploration-mode labeled round
formats `APP_EXPLORATION_PROMPT` (lines 272-280), whose
`exploration_directive` placeholder is not among the arguments
(`KeyError`).  Neither path mutates any loop state before raising.  Only
task-mode labeled rounds (`TASK_EXECUTION_PROMPT`, all placeholders
supplied) reach the model call and the parser; the reflection prompt's
placeholders are all supplied, so the reflection pass runs as modelled. -/
def roundCore (mode : PyStr) (goals : List PyStr) (elements : List UIElement)
    (st : LoopSt) (inp : RoundInput) : RoundResult :=
    -- sub-goal management (lines 240-247)
    if mode = "task".toList ∧ goals.length ≤ st.sub_goal_index then
      ⟨{ st with task_complete := true }, .brk, none, []⟩
    else if st.grid_mode then
      -- grid branch (lines 252-261): AttributeError at the undefined
      -- image_utils.draw_grid before the model call; run ends
      ⟨st, .fault, none, []⟩
    else if mode = "explore".toList then
      -- exploration labeled branch (lines 263-281): KeyError at
      -- APP_EXPLORATION_PROMPT.format before the model call; run ends
      ⟨st, .fault, none, []⟩
    else
      -- task-mode labeled branch: prompt + model call + parse (lines 263-282)
      match (if inp.modelOk then parse_action_response inp.response else none) with
      | none =>
        ⟨{ st with last_action_summary := "Failed to parse VLM response. Will retry.".toList },
          .cont, none, []⟩
      | some a =>
        let st1 := { st with last_action_summary := a.summary }
        if a.action_name = "finish".toList then
          ⟨{ st1 with task_complete := true }, .brk, none, []⟩
        else if a.action_name = "subgoal_complete".toList then
          ⟨{ st1 with sub_goal_index := st1.sub_goal_index + 1 }, .cont, none, []⟩
        else if st.grid_mode then
          -- lines 304-307 ("Always exit grid mode after one action"): dead
          -- code — a grid-mode round faults above before parsing anything
          ⟨{ st1 with grid_mode := false }, .cont, none, reflectionOps a.action_name inp⟩
        else if a.action_name = "grid".toList then
          ⟨{ st1 with grid_mode := true }, .cont, none, []⟩
        else
          let r := execute_action a.action_name a.action_params elements
          if r.err then ⟨st1, .fault, some r, []⟩
          else
            ⟨{ st1 with task_complete := st1.task_complete || r.setComplete }, .cont,
              some r, reflectionOps a.action_name inp⟩

/-- One iteration of the `while` body (navigator.py lines 222-323), for
round number `round` (already incremented).  Round 1 reuses the initial
load's elements; later rounds re-capture and re-extract (abstracted as
`inp.captureOk` / `inp.elements`); a failed capture skips the round
(lines 235-237). -/
def roundBody (mode : PyStr) (goals : List PyStr) (initElems : List UIElement)
    (round : Nat) (st : LoopSt) (inp : RoundInput) : RoundResult :=
  if round = 1 then roundCore mode goals initElems st inp
  else if inp.captureOk then roundCore mode goals inp.elements st inp
  else ⟨st, .cont, none, []⟩

/-- Trace record for one executed round. -/
structure RoundTrace where
  round : Nat
  before : LoopSt
  after : LoopSt
  exit : RoundExit
  dispatched : Option ExecResult
  reflOps : List DeviceOp
deriving DecidableEq, Repr

/-- The loop `while self.round_count < max_rounds and not self.task_complete`
(navigator.py line 222), with the `+= 1` at line 223 carried as `round`.
`fuel` is the number of rounds the budget still allows, i.e.
`(max_rounds - round_count).toNat`; `Navigator.run` enters the loop with
`round_count = 0` and `fuel = max_rounds.toNat`, so `fuel = 0` is exactly
the exit condition `round_count ≥ max_rounds` (a structural encoding of
the same guard, chosen so the loop computes by kernel reduction). -/
def runLoop (mode : PyStr) (goals : List PyStr) (initElems : List UIElement)
    (oracle : Nat → RoundInput) : Nat → Nat → LoopSt → LoopSt × List RoundTrace
  | 0, _, st => (st, [])
  | fuel + 1, round, st =>
    if st.task_complete then (st, [])
    else
      let r := round + 1
      let res := roundBody mode goals initElems r st (oracle r)
      match res.exit with
      | .cont =>
        let rest := runLoop mode goals initElems oracle fuel r res.st
        (rest.1, ⟨r, st, res.st, res.exit, res.dispatched, res.reflOps⟩ :: rest.2)
      | _ => (res.st, [⟨r, st, res.st, res.exit, res.dispatched, res.reflOps⟩])

/-- The setting `f"agent.max_" + agent_mode + "_rounds"` with default 30 (line 185). -/
def navMaxRounds (cfg : CfgVal) (mode : PyStr) : Int :=
  getSettingInt cfg ("agent.max_".toList ++ mode ++ "_rounds".toList) 30

/-- Navigator state as constructed in `__init__` (lines 34-44). -/
def initialLoopSt : LoopSt := ⟨false, false, 0, "None".toList⟩

structure RunResult where
  finalSt : LoopSt
  trace : List RoundTrace
  aborted : Bool
deriving DecidableEq, Repr

/-- Model of `Navigator.run` (lines 184-335).  `goals` is the sub-goal plan produced
by `_decompose_task_into_sub_goals` (an external model call; on failure the
fallback is the one-item plan `[task_desc]`, but `ast.literal_eval` can also
yield `[]`, in which case the run aborts, line 190-192).  `initElems` is the
result of the initial-load retry loop (lines 200-219): the first nonempty
extraction, or `[]` when all five attempts found none, which aborts. -/
def navRun (cfg : CfgVal) (mode : PyStr) (goals : List PyStr)
    (initElems : List UIElement) (oracle : Nat → RoundInput) : RunResult :=
  if mode = "task".toList ∧ goals = [] then ⟨initialLoopSt, [], true⟩
  else if initElems = [] then ⟨initialLoopSt, [], true⟩
  else
    let r := runLoop mode goals initElems oracle (navMaxRounds cfg mode).toNat 0 initialLoopSt
    ⟨r.1, r.2, false⟩

end TaskDroid

namespace TaskDroid

/-! ## Spec-side definitions and concrete fixtures -/

/-- The candidate elements of a snapshot in document order, before the
greedy distance filter. -/
def candidateElements (tree : XTree) : List UIElement :=
  (iterWithParent tree none).filterMap buildElem

/-- The per-argument conversion rule as the spec words it: strip an optional
`label:` prefix, strip surrounding quotes and spaces, and convert to an
integer exactly when the remaining token is purely numeric and the action
name is not `type_text`. -/
def specArgValue (actionName : PyStr) (arg : PyStr) : Param :=
  let afterLabel := if arg.contains ':' then pyStrip (afterFirst ':' arg) else arg
  let token := stripBothP (fun c => c = ' ' ∨ c = '\'' ∨ c = '"') afterLabel
  if actionName ≠ "type_text".toList ∧ isDigits token then
    .int (digitsToNat token : Int)
  else .str token

/-- Reading order claimed by the spec: ascending top-y, then left-x. -/
def readingOrderLe (a b : UIElement) : Prop :=
  a.bbox.1.2 < b.bbox.1.2 ∨ (a.bbox.1.2 = b.bbox.1.2 ∧ a.bbox.1.1 ≤ b.bbox.1.1)

instance : DecidableRel readingOrderLe := fun a b => by
  unfold readingOrderLe; infer_instance

/-- Fixture: a clickable node low on the screen (top-y 100). -/
def fixNodeLow : NodeAttrs :=
  { clickable := some "true".toList, bounds := some "[0,100][10,110]".toList,
    resourceId := some "com.app:id/low".toList }

/-- Fixture: a clickable node at the top of the screen (top-y 0). -/
def fixNodeHigh : NodeAttrs :=
  { clickable := some "true".toList, bounds := some "[0,0][10,10]".toList,
    resourceId := some "com.app:id/high".toList }

/-- Fixture: a clickable node whose center is 2px (Manhattan) from
`fixNodeLow`'s center. -/
def fixNodeNear : NodeAttrs :=
  { clickable := some "true".toList, bounds := some "[0,102][10,112]".toList,
    resourceId := some "com.app:id/near".toList }

/-- Fixture: a non-interactive root. -/
def fixRoot : NodeAttrs := { cls := some "Root".toList }

/-- Fixture snapshot: document order puts the lower element first, so a
sorted output would have to reorder it. -/
def fixTreeUnsorted : XTree :=
  .node fixRoot (.ofList [.node fixNodeLow .nil, .node fixNodeHigh .nil])

/-- Fixture snapshot with two elements closer than the default 20px. -/
def fixTreeClose : XTree :=
  .node fixRoot (.ofList [.node fixNodeLow .nil, .node fixNodeNear .nil])

/-- Fixture element for runs that need a nonempty initial element list. -/
def fixElem : UIElement := ⟨"e".toList, ((0, 0), (10, 10)), "clickable".toList, []⟩

/-- Fixture configuration: three task rounds. -/
def fixCfgTask3 : CfgVal :=
  .dict [("agent".toList, .dict [("max_task_rounds".toList, .int 3)])]

/-- Fixture configuration: one explore round. -/
def fixCfg1 : CfgVal :=
  .dict [("agent".toList, .dict [("max_explore_rounds".toList, .int 1)])]

/-- Fixture oracle: round 1 answers `grid`; later entries are unreached
(the run faults in round 2 before its model call). -/
def fixGridOracle : Nat → RoundInput := fun n =>
  if n = 1 then ⟨true, [], true, "Action: grid".toList, true, false, []⟩
  else ⟨true, [], false, [], true, false, []⟩

/-- Fixture oracle: every round answers `subgoal_complete`. -/
def fixSubgoalOracle : Nat → RoundInput := fun _ =>
  ⟨true, [], true, "Action: subgoal_complete".toList, true, false, []⟩

/-- Fixture oracle: every round answers `finish`. -/
def fixFinishOracle : Nat → RoundInput := fun _ =>
  ⟨true, [], true, "Action: finish".toList, true, false, []⟩

end TaskDroid
namespace TaskDroid

/-! ## Helper lemmas -/

theorem word_not_space {c : Char} (h : isWordChar c = true) : isPySpace c = false := by
  by_contra hc
  rw [Bool.not_eq_false] at hc
  have h6 : c = ' ' ∨ c = '\t' ∨ c = '\n' ∨ c = '\r' ∨ c = '\x0b' ∨ c = '\x0c' := by
    simpa [isPySpace] using hc
  rcases h6 with rfl | rfl | rfl | rfl | rfl | rfl <;> exact absurd h (by decide)

theorem space_toLowerChar (c : Char) : isPySpace (toLowerChar c) = isPySpace c := by
  unfold toLowerChar
  split <;> rfl

theorem mem_dropWhile_of_pred_false {P : Char → Bool} {x : Char} :
    ∀ {l : PyStr}, x ∈ l → P x = false → x ∈ l.dropWhile P := by
  intro l hx hp
  induction l with
  | nil => simp at hx
  | cons c t ih =>
    rw [List.dropWhile_cons]
    by_cases hc : P c = true
    · rw [if_pos hc]
      rcases List.mem_cons.mp hx with rfl | hx'
      · rw [hc] at hp; cases hp
      · exact ih hx'
    · rw [if_neg hc]
      exact hx

theorem stripBothP_ne_nil {P : Char → Bool} {l : PyStr} {x : Char}
    (hx : x ∈ l) (hp : P x = false) : stripBothP P l ≠ [] := by
  unfold stripBothP
  intro h
  have h1 : x ∈ l.dropWhile P := mem_dropWhile_of_pred_false hx hp
  have h2 : x ∈ (l.dropWhile P).reverse := List.mem_reverse.mpr h1
  have h3 : x ∈ (l.dropWhile P).reverse.dropWhile P := mem_dropWhile_of_pred_false h2 hp
  rw [List.reverse_eq_nil_iff] at h
  rw [h] at h3
  simp at h3

theorem manhattan_comm (a b : Int × Int) : manhattan a b = manhattan b a := by
  unfold manhattan
  rw [abs_sub_comm, abs_sub_comm a.2]

end TaskDroid
namespace TaskDroid

/-- C4: for every input on which `parse_reflection_response` returns a
verdict, the decision field is one of exactly SUCCESS, CONTINUE,
INEFFECTIVE, BACK (decision text outside this set is replaced by CONTINUE),
and the documentation field defaults to the sentinel "N/A" when the
Documentation section is absent. -/
theorem reflection_decision_closure (s : PyStr) (v : ReflectionVerdict)
    (h : parse_reflection_response s = some v) :
    v.decision ∈ validDecisions ∧
      (findCISub "documentation:".toList s = none → v.documentation = "N/A".toList) := by
  unfold parse_reflection_response at h
  split at h
  · split at h
    · cases h
    · cases h
      constructor
      · show pyUpper (if validDecisions.contains (pyUpper _) = true then _
          else "CONTINUE".toList) ∈ validDecisions
        split
        · next hv => simpa using hv
        · decide
      · intro hdoc
        show sectDefault (extractWindow "documentation:".toList none s) "N/A".toList = "N/A".toList
        unfold extractWindow
        rw [hdoc]
        rfl
  · cases h

/-- C4 witness: the spec's scenario `Decision: MAYBE` yields CONTINUE. -/
theorem reflection_decision_closure_witness :
    parse_reflection_response "Decision: MAYBE\nThought: x".toList =
        some ⟨"CONTINUE".toList, "x".toList, "N/A".toList⟩ ∧
      ("CONTINUE".toList ∈ validDecisions ∧
        (findCISub "documentation:".toList "Decision: MAYBE\nThought: x".toList = none →
          "N/A".toList = "N/A".toList)) :=
  ⟨by decide,
   reflection_decision_closure "Decision: MAYBE\nThought: x".toList
     ⟨"CONTINUE".toList, "x".toList, "N/A".toList⟩ (by decide)⟩

end TaskDroid
namespace TaskDroid

/-- C5: for `tap`/`long_press`/`swipe_element`, an empty element list or an
out-of-range 1-based index is a skip — `("", -1)`, no device call, no
exception; an unrecognized action name likewise executes nothing, returns
an empty identifier, and does not raise. -/
theorem invalid_action_skip (name : PyStr) (params : List Param)
    (elements : List UIElement) :
    ((name = "tap".toList ∨ name = "long_press".toList ∨ name = "swipe_element".toList) →
      (elements = [] → execute_action name params elements = skipExec) ∧
      (∀ i : Int, params.head? = some (.int i) →
        ¬(1 ≤ i ∧ i ≤ (elements.length : Int)) →
        execute_action name params elements = skipExec)) ∧
    (name ∉ actionTable → execute_action name params elements = skipExec) := by
  constructor
  · intro hmem
    have hne : ¬(name = "type_text".toList ∧ params = []) := by
      rcases hmem with rfl | rfl | rfl <;> simp
    have htab : actionTable.contains name = true := by
      rcases hmem with rfl | rfl | rfl <;> decide
    have hfam : (name = "tap".toList ∨ name = "long_press".toList ∨
        name = "swipe_element".toList) := hmem
    constructor
    · rintro rfl
      unfold execute_action
      rw [if_neg hne, if_pos htab, if_pos hfam]
      rfl
    · intro i hi hrange
      unfold execute_action
      rw [if_neg hne, if_pos htab, if_pos hfam]
      by_cases hempty : elements.isEmpty
      · rw [if_pos hempty]
      · rw [if_neg hempty, hi]
        simp only [if_neg hrange]
  · intro hnot
    have hne : ¬(name = "type_text".toList ∧ params = []) := by
      rintro ⟨rfl, -⟩
      exact hnot (by decide)
    have htab : ¬actionTable.contains name = true := by
      intro hc
      exact hnot (by simpa using hc)
    unfold execute_action
    rw [if_neg hne, if_neg htab]

/-- C5 witness: concrete skips — `tap` with no elements, `tap` with index 5
against one element, and an unknown action name. -/
theorem invalid_action_skip_witness :
    execute_action "tap".toList [.int 5] [] = skipExec ∧
      execute_action "tap".toList [.int 5] [fixElem] = skipExec ∧
      execute_action "frobnicate".toList [] [fixElem] = skipExec :=
  ⟨((invalid_action_skip "tap".toList [.int 5] []).1 (Or.inl rfl)).1 rfl,
   ((invalid_action_skip "tap".toList [.int 5] [fixElem]).1 (Or.inl rfl)).2 5 rfl
     (by decide),
   (invalid_action_skip "frobnicate".toList [] [fixElem]).2 (by decide)⟩

/-- C9 counterexample: parsing `type_text()` yields the single empty-string
argument, and dispatching `type_text` with that argument does call the
device `type_text` operation — the claim's "never sent to the device" fails. -/
theorem type_text_empty_counterexample :
    (parse_action_response "Action: type_text()".toList).map (fun r => r.action_params) =
        some [Param.str []] ∧
      (execute_action "type_text".toList [Param.str []] []).ops =
        [DeviceOp.typeText []] := by
  constructor
  · decide
  · decide

/-- C9 amended: the dispatcher skips `type_text` exactly when the parameter
list is empty; a present-but-empty text argument is forwarded to the device
`type_text` operation. -/
theorem type_text_skip_amended (elements : List UIElement) :
    execute_action "type_text".toList [] elements = skipExec ∧
      execute_action "type_text".toList [Param.str []] elements =
        { skipExec with ops := [DeviceOp.typeText []] } := by
  constructor
  · rfl
  · rfl

end TaskDroid
namespace TaskDroid

theorem dedupFold_pairwise (minDist : Int) :
    ∀ (l : List (NodeAttrs × Option NodeAttrs)) (acc : List UIElement),
      acc.Pairwise
        (fun a b => minDist ≤ manhattan (centerOfBBox a.bbox) (centerOfBBox b.bbox)) →
      (l.foldl (dedupStep minDist) acc).Pairwise
        (fun a b => minDist ≤ manhattan (centerOfBBox a.bbox) (centerOfBBox b.bbox)) := by
  intro l
  induction l with
  | nil => intro acc h; simpa using h
  | cons n t ih =>
    intro acc hacc
    rw [List.foldl_cons]
    apply ih
    cases hb : buildElem n with
    | none => simpa only [dedupStep, hb] using hacc
    | some e =>
      by_cases hany :
          (acc.any fun ex =>
            decide (manhattan (centerOfBBox e.bbox) (centerOfBBox ex.bbox) < minDist)) = true
      · simpa only [dedupStep, hb, if_pos hany] using hacc
      · simp only [dedupStep, hb, if_neg hany]
        rw [List.pairwise_append]
        refine ⟨hacc, List.pairwise_singleton _ _, ?_⟩
        intro a ha b hb'
        rw [List.mem_singleton] at hb'
        subst hb'
        simp only [List.any_eq_true, decide_eq_true_eq] at hany
        push_neg at hany
        have h2 := hany a ha
        rw [manhattan_comm]
        omega

/-- C3: no two elements returned by the extractor have box centers at
Manhattan distance strictly below the configured `min_element_dist`
(default 20): each kept element is at distance ≥ `min_element_dist` from
every earlier kept element. -/
theorem dedup_min_distance (cfg : CfgVal) (tree : XTree) :
    (extract_interactive_elements cfg tree).Pairwise
      (fun a b => minDistOf cfg ≤ manhattan (centerOfBBox a.bbox) (centerOfBBox b.bbox)) := by
  unfold extract_interactive_elements
  exact dedupFold_pairwise _ _ _ List.Pairwise.nil

end TaskDroid
namespace TaskDroid

theorem dedupFold_append (minDist : Int) :
    ∀ (l : List (NodeAttrs × Option NodeAttrs)) (acc : List UIElement),
      ∃ s, l.foldl (dedupStep minDist) acc = acc ++ s ∧
        s.Sublist (l.filterMap buildElem) := by
  intro l
  induction l with
  | nil => intro acc; exact ⟨[], by simp, by simp⟩
  | cons n t ih =>
    intro acc
    rw [List.foldl_cons, List.filterMap_cons]
    cases hb : buildElem n with
    | none =>
      simp only [dedupStep, hb]
      exact ih acc
    | some e =>
      by_cases hany :
          (acc.any fun ex =>
            decide (manhattan (centerOfBBox e.bbox) (centerOfBBox ex.bbox) < minDist)) = true
      · simp only [dedupStep, hb, if_pos hany]
        obtain ⟨s, hs, hsub⟩ := ih acc
        exact ⟨s, hs, hsub.trans (List.sublist_cons_self _ _)⟩
      · simp only [dedupStep, hb, if_neg hany]
        obtain ⟨s, hs, hsub⟩ := ih (acc ++ [e])
        refine ⟨e :: s, ?_, List.Sublist.cons₂ _ hsub⟩
        rw [hs, List.append_assoc]
        rfl

theorem dedupFold_blame (minDist : Int) :
    ∀ (l : List (NodeAttrs × Option NodeAttrs)) (acc : List UIElement),
      ∀ c ∈ l.filterMap buildElem, c ∉ l.foldl (dedupStep minDist) acc →
        ∃ e ∈ l.foldl (dedupStep minDist) acc,
          manhattan (centerOfBBox e.bbox) (centerOfBBox c.bbox) < minDist := by
  intro l
  induction l with
  | nil => intro acc c hc; simp at hc
  | cons n t ih =>
    intro acc c hc hnot
    rw [List.foldl_cons] at hnot ⊢
    rw [List.filterMap_cons] at hc
    cases hb : buildElem n with
    | none =>
      rw [hb] at hc
      simp only [dedupStep, hb] at hnot ⊢
      exact ih acc c hc hnot
    | some e =>
      rw [hb] at hc
      by_cases hany :
          (acc.any fun ex =>
            decide (manhattan (centerOfBBox e.bbox) (centerOfBBox ex.bbox) < minDist)) = true
      · simp only [dedupStep, hb, if_pos hany] at hnot ⊢
        rcases List.mem_cons.mp hc with rfl | hc'
        · simp only [List.any_eq_true, decide_eq_true_eq] at hany
          obtain ⟨ex, hex, hlt⟩ := hany
          obtain ⟨s, hs, -⟩ := dedupFold_append minDist t acc
          refine ⟨ex, ?_, by rw [manhattan_comm]; exact hlt⟩
          rw [hs]
          exact List.mem_append_left _ hex
        · exact ih acc c hc' hnot
      · simp only [dedupStep, hb, if_neg hany] at hnot ⊢
        rcases List.mem_cons.mp hc with rfl | hc'
        · exfalso
          apply hnot
          obtain ⟨s, hs, -⟩ := dedupFold_append minDist t (acc ++ [c])
          rw [hs]
          exact List.mem_append_left _ (List.mem_append_right _ (List.mem_singleton_self _))
        · exact ih (acc ++ [e]) c hc' hnot

/-- C6 counterexample: on a snapshot whose document order puts an element
with top-y 100 before one with top-y 0, the extractor returns them in
document order — the output is not sorted by (top-y, left-x), so the
claimed sort does not happen. -/
theorem extract_sort_counterexample :
    ¬ (extract_interactive_elements (.dict []) fixTreeUnsorted).Chain' readingOrderLe := by
  intro h
  rw [show extract_interactive_elements (.dict []) fixTreeUnsorted =
      [⟨"Root_0x0.com.app.id_low".toList, ((0, 100), (10, 110)), "clickable".toList, []⟩,
       ⟨"Root_0x0.com.app.id_high".toList, ((0, 0), (10, 10)), "clickable".toList, []⟩]
    from by decide] at h
  rw [List.chain'_cons] at h
  have h1 := h.1
  unfold readingOrderLe at h1
  rcases h1 with h1 | ⟨h1, -⟩
  · exact absurd h1 (by decide)
  · exact absurd h1 (by decide)

/-- C6 amended: the extractor performs no sort; candidates are processed in
document (pre-)order, so the returned list is a subsequence of the
document-order candidate list, and an element dropped by de-duplication is
within `min_element_dist` of some kept element (which, the output being a
document-order subsequence, precedes it in document order). -/
theorem extract_document_order (cfg : CfgVal) (tree : XTree) :
    (extract_interactive_elements cfg tree).Sublist (candidateElements tree) ∧
      ∀ c ∈ candidateElements tree, c ∉ extract_interactive_elements cfg tree →
        ∃ e ∈ extract_interactive_elements cfg tree,
          manhattan (centerOfBBox e.bbox) (centerOfBBox c.bbox) < minDistOf cfg := by
  constructor
  · obtain ⟨s, hs, hsub⟩ := dedupFold_append (minDistOf cfg) (iterWithParent tree none) []
    unfold extract_interactive_elements
    rw [hs]
    simpa [candidateElements] using hsub
  · intro c hc hnot
    exact dedupFold_blame (minDistOf cfg) (iterWithParent tree none) [] c hc hnot

/-- C6 amended witness: on the close-pair snapshot the document-order first
element is kept and the dropped near element is within distance of it. -/
theorem extract_document_order_witness :
    (extract_interactive_elements (.dict []) fixTreeClose).Sublist
        (candidateElements fixTreeClose) ∧
      ∃ e ∈ extract_interactive_elements (.dict []) fixTreeClose,
        manhattan (centerOfBBox e.bbox)
            (centerOfBBox
              (⟨"Root_0x0.com.app.id_near".toList, ((0, 102), (10, 112)),
                "clickable".toList, []⟩ : UIElement).bbox) <
          minDistOf (.dict []) :=
  ⟨(extract_document_order (.dict []) fixTreeClose).1,
   (extract_document_order (.dict []) fixTreeClose).2
     ⟨"Root_0x0.com.app.id_near".toList, ((0, 102), (10, 112)), "clickable".toList, []⟩
     (by decide) (by decide)⟩

end TaskDroid
namespace TaskDroid

theorem runLoop_trace_len (mode : PyStr) (goals : List PyStr)
    (initElems : List UIElement) (oracle : Nat → RoundInput) :
    ∀ (fuel round : Nat) (st : LoopSt),
      (runLoop mode goals initElems oracle fuel round st).2.length ≤ fuel := by
  intro fuel
  induction fuel with
  | zero => intro round st; simp [runLoop]
  | succ n ih =>
    intro round st
    simp only [runLoop]
    split
    · simp
    · split
      · simpa using Nat.succ_le_succ (ih _ _)
      · simp

theorem runLoop_round_nums (mode : PyStr) (goals : List PyStr)
    (initElems : List UIElement) (oracle : Nat → RoundInput) :
    ∀ (fuel round : Nat) (st : LoopSt) (i : Nat) (tr : RoundTrace),
      (runLoop mode goals initElems oracle fuel round st).2[i]? = some tr →
      tr.round = round + i + 1 := by
  intro fuel
  induction fuel with
  | zero => intro round st i tr h; simp [runLoop] at h
  | succ n ih =>
    intro round st i tr h
    simp only [runLoop] at h
    split at h
    · simp at h
    · split at h
      · cases i with
        | zero =>
          rw [List.getElem?_cons_zero] at h
          cases h
          rfl
        | succ j =>
          rw [List.getElem?_cons_succ] at h
          have := ih (round + 1) _ j tr h
          omega
      · cases i with
        | zero =>
          rw [List.getElem?_cons_zero] at h
          cases h
          rfl
        | succ j => simp at h

/-- C1: the active-round loop executes at most `max_rounds` iterations
(`max_rounds` read from the configuration key `agent.max_<mode>_rounds`,
default 30); the round counter increases by exactly one per iteration
(round `i` of the trace carries number `i+1`), and the loop stops at the
round budget or the task-complete flag. -/
theorem round_budget_termination (cfg : CfgVal) (mode : PyStr) (goals : List PyStr)
    (initElems : List UIElement) (oracle : Nat → RoundInput) :
    (navRun cfg mode goals initElems oracle).trace.length ≤ (navMaxRounds cfg mode).toNat ∧
      (∀ (i : Nat) (tr : RoundTrace),
        (navRun cfg mode goals initElems oracle).trace[i]? = some tr → tr.round = i + 1) ∧
      (lookupKeys (pySplit '.' ("agent.max_".toList ++ mode ++ "_rounds".toList)) cfg = none →
        navMaxRounds cfg mode = 30) := by
  refine ⟨?_, ?_, ?_⟩
  · unfold navRun
    split
    · simp
    · split
      · simp
      · exact runLoop_trace_len mode goals initElems oracle _ 0 initialLoopSt
  · intro i tr h
    unfold navRun at h
    split at h
    · simp at h
    · split at h
      · simp at h
      · have := runLoop_round_nums mode goals initElems oracle _ 0 initialLoopSt i tr h
        omega
  · intro h
    unfold navMaxRounds getSettingInt
    rw [h]

end TaskDroid

namespace TaskDroid

/-- C1 witness: a concrete one-round task run (the model answers `finish`)
under the default 30-round budget. -/
theorem round_budget_termination_witness :
    (navRun (.dict []) "task".toList ["g".toList] [fixElem] fixFinishOracle).trace.length ≤
        (navMaxRounds (.dict []) "task".toList).toNat ∧
      (⟨1, initialLoopSt, ⟨true, false, 0, "No summary provided.".toList⟩,
          .brk, none, []⟩ : RoundTrace).round = 0 + 1 ∧
      navMaxRounds (.dict []) "task".toList = 30 :=
  ⟨(round_budget_termination (.dict []) "task".toList ["g".toList] [fixElem]
      fixFinishOracle).1,
   (round_budget_termination (.dict []) "task".toList ["g".toList] [fixElem]
      fixFinishOracle).2.1 0
     ⟨1, initialLoopSt, ⟨true, false, 0, "No summary provided.".toList⟩, .brk, none, []⟩
     (by decide),
   (round_budget_termination (.dict []) "task".toList ["g".toList] [fixElem]
      fixFinishOracle).2.2 rfl⟩

end TaskDroid
namespace TaskDroid

theorem roundCore_subgoal_cases (mode : PyStr) (goals : List PyStr)
    (elements : List UIElement) (st : LoopSt) (inp : RoundInput) :
    (roundCore mode goals elements st inp).st.sub_goal_index = st.sub_goal_index ∨
      ((roundCore mode goals elements st inp).st.sub_goal_index = st.sub_goal_index + 1 ∧
        ¬(mode = "task".toList ∧ goals.length ≤ st.sub_goal_index)) := by
  unfold roundCore
  split
  · left; rfl
  · next hguard =>
    dsimp only
    repeat' split
    all_goals first | (left; rfl) | (right; exact ⟨rfl, hguard⟩)

theorem roundBody_subgoal_cases (mode : PyStr) (goals : List PyStr)
    (initElems : List UIElement) (round : Nat) (st : LoopSt) (inp : RoundInput) :
    (roundBody mode goals initElems round st inp).st.sub_goal_index = st.sub_goal_index ∨
      ((roundBody mode goals initElems round st inp).st.sub_goal_index = st.sub_goal_index + 1 ∧
        ¬(mode = "task".toList ∧ goals.length ≤ st.sub_goal_index)) := by
  unfold roundBody
  split
  · exact roundCore_subgoal_cases mode goals initElems st inp
  · split
    · exact roundCore_subgoal_cases mode goals inp.elements st inp
    · left; rfl

end TaskDroid
namespace TaskDroid

theorem runLoop_step (mode : PyStr) (goals : List PyStr)
    (initElems : List UIElement) (oracle : Nat → RoundInput) :
    ∀ (fuel round : Nat) (st : LoopSt),
      ∀ tr ∈ (runLoop mode goals initElems oracle fuel round st).2,
        tr.after = (roundBody mode goals initElems tr.round tr.before (oracle tr.round)).st ∧
          tr.exit = (roundBody mode goals initElems tr.round tr.before (oracle tr.round)).exit := by
  intro fuel
  induction fuel with
  | zero => intro round st tr h; simp [runLoop] at h
  | succ n ih =>
    intro round st tr h
    simp only [runLoop] at h
    split at h
    · simp at h
    · split at h
      · rcases List.mem_cons.mp h with rfl | h'
        · exact ⟨rfl, rfl⟩
        · exact ih _ _ tr h'
      · rcases List.mem_singleton.mp h with rfl
        exact ⟨rfl, rfl⟩

theorem runLoop_head (mode : PyStr) (goals : List PyStr)
    (initElems : List UIElement) (oracle : Nat → RoundInput)
    (fuel round : Nat) (st : LoopSt) (tr : RoundTrace)
    (h : (runLoop mode goals initElems oracle fuel round st).2.head? = some tr) :
    tr.before = st := by
  cases fuel with
  | zero => simp [runLoop] at h
  | succ n =>
    simp only [runLoop] at h
    split at h
    · simp at h
    · split at h
      · rw [List.head?_cons] at h
        cases h
        rfl
      · rw [List.head?_cons] at h
        cases h
        rfl

theorem runLoop_inv (mode : PyStr) (goals : List PyStr)
    (initElems : List UIElement) (oracle : Nat → RoundInput) (P : LoopSt → Prop)
    (hstep : ∀ round st inp, P st → P (roundBody mode goals initElems round st inp).st) :
    ∀ (fuel round : Nat) (st : LoopSt), P st →
      P (runLoop mode goals initElems oracle fuel round st).1 ∧
        ∀ tr ∈ (runLoop mode goals initElems oracle fuel round st).2,
          P tr.before ∧ P tr.after := by
  intro fuel
  induction fuel with
  | zero => intro round st hP; exact ⟨hP, by simp [runLoop]⟩
  | succ n ih =>
    intro round st hP
    simp only [runLoop]
    split
    · exact ⟨hP, by simp⟩
    · split
      · next heq =>
        have hP' : P (roundBody mode goals initElems (round + 1) st (oracle (round + 1))).st :=
          hstep _ _ _ hP
        obtain ⟨h1, h2⟩ := ih (round + 1) _ hP'
        refine ⟨h1, ?_⟩
        intro tr htr
        rcases List.mem_cons.mp htr with rfl | htr'
        · exact ⟨hP, hP'⟩
        · exact h2 tr htr'
      · exact ⟨hstep _ _ _ hP, by
          intro tr htr
          rcases List.mem_singleton.mp htr with rfl
          exact ⟨hP, hstep _ _ _ hP⟩⟩

end TaskDroid
namespace TaskDroid

theorem roundCore_guard_brk (mode : PyStr) (goals : List PyStr)
    (elements : List UIElement) (st : LoopSt) (inp : RoundInput)
    (hm : mode = "task".toList) (hle : goals.length ≤ st.sub_goal_index) :
    (roundCore mode goals elements st inp).st.task_complete = true ∧
      (roundCore mode goals elements st inp).exit = RoundExit.brk := by
  unfold roundCore
  rw [if_pos ⟨hm, hle⟩]
  exact ⟨rfl, rfl⟩

theorem roundBody_guard_brk (mode : PyStr) (goals : List PyStr)
    (initElems : List UIElement) (round : Nat) (st : LoopSt) (inp : RoundInput)
    (hm : mode = "task".toList) (hle : goals.length ≤ st.sub_goal_index)
    (hcap : round = 1 ∨ inp.captureOk = true) :
    (roundBody mode goals initElems round st inp).st.task_complete = true ∧
      (roundBody mode goals initElems round st inp).exit = RoundExit.brk := by
  unfold roundBody
  by_cases h1 : round = 1
  · rw [if_pos h1]
    exact roundCore_guard_brk mode goals initElems st inp hm hle
  · rcases hcap with h1x | hcapok
    · exact absurd h1x h1
    · rw [if_neg h1, if_pos hcapok]
      exact roundCore_guard_brk mode goals inp.elements st inp hm hle

theorem roundCore_explore_st (goals : List PyStr) (elements : List UIElement)
    (st : LoopSt) (inp : RoundInput) :
    (roundCore "explore".toList goals elements st inp).st = st := by
  unfold roundCore
  rw [if_neg (by rintro ⟨h, -⟩; exact absurd h (by decide))]
  split <;> rfl

theorem roundBody_explore_st (goals : List PyStr) (initElems : List UIElement)
    (round : Nat) (st : LoopSt) (inp : RoundInput) :
    (roundBody "explore".toList goals initElems round st inp).st = st := by
  unfold roundBody
  split
  · exact roundCore_explore_st goals initElems st inp
  · split
    · exact roundCore_explore_st goals inp.elements st inp
    · rfl

end TaskDroid
namespace TaskDroid

/-- C10: in both task and exploration mode the sub-goal index starts at 0,
never decreases, and never exceeds the length of the sub-goal plan.  In
task mode it stays within the plan length, and a round that begins with
the index at the plan length (and reaches the sub-goal guard, i.e. round 1
or a round with a successful capture) sets the task-complete flag and
breaks — index equal to plan length signals overall completion
(navigator.py lines 242-247).  In exploration mode the plan is empty and
the index stays 0 for the whole run: exploration-mode labeled rounds fault
at the `APP_EXPLORATION_PROMPT` format (its `exploration_directive`
placeholder is not supplied) before any response is parsed, so
`subgoal_complete` is never parsed there. -/
theorem subgoal_index_invariant (cfg : CfgVal) (mode : PyStr) (goals : List PyStr)
    (initElems : List UIElement) (oracle : Nat → RoundInput) :
    (∀ tr, (navRun cfg mode goals initElems oracle).trace.head? = some tr →
        tr.before.sub_goal_index = 0) ∧
      (∀ tr ∈ (navRun cfg mode goals initElems oracle).trace,
        tr.before.sub_goal_index ≤ tr.after.sub_goal_index) ∧
      (mode = "task".toList →
        (∀ tr ∈ (navRun cfg mode goals initElems oracle).trace,
            tr.before.sub_goal_index ≤ goals.length ∧
              tr.after.sub_goal_index ≤ goals.length) ∧
          (navRun cfg mode goals initElems oracle).finalSt.sub_goal_index ≤ goals.length ∧
          (∀ tr ∈ (navRun cfg mode goals initElems oracle).trace,
            goals.length ≤ tr.before.sub_goal_index →
            (tr.round = 1 ∨ (oracle tr.round).captureOk = true) →
            tr.after.task_complete = true ∧ tr.exit = RoundExit.brk)) ∧
      (mode = "explore".toList →
        (∀ tr ∈ (navRun cfg mode goals initElems oracle).trace,
            tr.before.sub_goal_index = 0 ∧ tr.after.sub_goal_index = 0) ∧
          (navRun cfg mode goals initElems oracle).finalSt.sub_goal_index = 0) := by
  refine ⟨?_, ?_, ?_, ?_⟩
  · intro tr htr
    unfold navRun at htr
    split at htr
    · simp at htr
    · split at htr
      · simp at htr
      · rw [runLoop_head mode goals initElems oracle _ 0 initialLoopSt tr htr]
        rfl
  · intro tr htr
    unfold navRun at htr
    split at htr
    · simp at htr
    · split at htr
      · simp at htr
      · have hstep := (runLoop_step mode goals initElems oracle _ 0 initialLoopSt tr htr).1
        rw [hstep]
        rcases roundBody_subgoal_cases mode goals initElems tr.round tr.before
            (oracle tr.round) with h | ⟨h, -⟩ <;> omega
  · intro hm
    have hstep : ∀ (round : Nat) (st : LoopSt) (inp : RoundInput),
        st.sub_goal_index ≤ goals.length →
        (roundBody mode goals initElems round st inp).st.sub_goal_index ≤ goals.length := by
      intro round st inp hle
      rcases roundBody_subgoal_cases mode goals initElems round st inp with h | ⟨h, hng⟩
      · omega
      · by_cases hc : goals.length ≤ st.sub_goal_index
        · exact absurd ⟨hm, hc⟩ hng
        · omega
    refine ⟨?_, ?_, ?_⟩
    · intro tr htr
      unfold navRun at htr
      split at htr
      · simp at htr
      · split at htr
        · simp at htr
        · obtain ⟨-, h2⟩ := runLoop_inv mode goals initElems oracle
            (fun st => st.sub_goal_index ≤ goals.length) hstep _ 0 initialLoopSt
            (by simp [initialLoopSt])
          exact h2 tr htr
    · unfold navRun
      split
      · simp [initialLoopSt]
      · split
        · simp [initialLoopSt]
        · exact (runLoop_inv mode goals initElems oracle
            (fun st => st.sub_goal_index ≤ goals.length) hstep _ 0 initialLoopSt
            (by simp [initialLoopSt])).1
    · intro tr htr hge hcap
      unfold navRun at htr
      split at htr
      · simp at htr
      · split at htr
        · simp at htr
        · obtain ⟨hafter, hexit⟩ := runLoop_step mode goals initElems oracle _ 0
            initialLoopSt tr htr
          obtain ⟨hc1, hc2⟩ := roundBody_guard_brk mode goals initElems tr.round tr.before
            (oracle tr.round) hm hge hcap
          rw [hafter, hexit]
          exact ⟨hc1, hc2⟩
  · intro hm
    subst hm
    have hstep : ∀ (round : Nat) (st : LoopSt) (inp : RoundInput),
        st.sub_goal_index = 0 →
        (roundBody "explore".toList goals initElems round st inp).st.sub_goal_index = 0 := by
      intro round st inp h0
      rw [roundBody_explore_st goals initElems round st inp]
      exact h0
    refine ⟨?_, ?_⟩
    · intro tr htr
      unfold navRun at htr
      split at htr
      · simp at htr
      · split at htr
        · simp at htr
        · obtain ⟨-, h2⟩ := runLoop_inv "explore".toList goals initElems oracle
            (fun st => st.sub_goal_index = 0) hstep _ 0 initialLoopSt rfl
          exact h2 tr htr
    · unfold navRun
      split
      · rfl
      · split
        · rfl
        · exact (runLoop_inv "explore".toList goals initElems oracle
            (fun st => st.sub_goal_index = 0) hstep _ 0 initialLoopSt rfl).1

end TaskDroid
namespace TaskDroid

/-- C10 witness: a concrete task-mode run with the one-item plan (round 1
parses `subgoal_complete` and moves the index to 1; round 2 begins at the
plan length, completes and breaks) and a concrete exploration run (round 1
faults at the prompt format): the first round starts at index 0, the final
task-mode index stays within the plan length, the completing round sets
the flag and breaks, and the exploration index ends at 0. -/
theorem subgoal_index_invariant_witness :
    (⟨1, ⟨false, false, 0, "None".toList⟩,
        ⟨false, false, 1, "No summary provided.".toList⟩, .cont, none, []⟩ :
          RoundTrace).before.sub_goal_index = 0 ∧
      (navRun (.dict []) "task".toList ["g".toList] [fixElem]
          fixSubgoalOracle).finalSt.sub_goal_index ≤ ["g".toList].length ∧
      ((⟨2, ⟨false, false, 1, "No summary provided.".toList⟩,
          ⟨true, false, 1, "No summary provided.".toList⟩, .brk, none, []⟩ :
            RoundTrace).after.task_complete = true ∧
        (⟨2, ⟨false, false, 1, "No summary provided.".toList⟩,
          ⟨true, false, 1, "No summary provided.".toList⟩, .brk, none, []⟩ :
            RoundTrace).exit = RoundExit.brk) ∧
      (navRun fixCfg1 "explore".toList [] [fixElem]
          fixSubgoalOracle).finalSt.sub_goal_index = 0 :=
  ⟨(subgoal_index_invariant (.dict []) "task".toList ["g".toList] [fixElem]
      fixSubgoalOracle).1 _ (by decide),
   ((subgoal_index_invariant (.dict []) "task".toList ["g".toList] [fixElem]
      fixSubgoalOracle).2.2.1 rfl).2.1,
   ((subgoal_index_invariant (.dict []) "task".toList ["g".toList] [fixElem]
      fixSubgoalOracle).2.2.1 rfl).2.2 _ (by decide) (by decide) (Or.inr (by decide)),
   ((subgoal_index_invariant fixCfg1 "explore".toList [] [fixElem]
      fixSubgoalOracle).2.2.2 rfl).2⟩

end TaskDroid
namespace TaskDroid

/-- C7 (code bug): the claimed one-shot clearing never happens.  Once the
grid action sets the flag, the next round begins in grid mode and faults
before any action is parsed or dispatched: navigator.py line 255 calls
`image_utils.draw_grid`, which does not exist in `image_utils.py`
(`AttributeError`); behind it, line 256 formats
`TASK_EXECUTION_GRID_PROMPT`, whose `task_description` placeholder is not
supplied (`KeyError`), and line 261 names the undefined
`response_parser.parse_grid_response`.  The clearing at lines 305-307,
despite its comment "Always exit grid mode after one action", is
unreachable.  Concretely: with plan `["g"]` and a 3-round budget, round 1
parses `grid` and sets the flag; round 2 starts in grid mode and faults,
ending the run with the flag still set, dispatching nothing — the flag is
never cleared after one subsequent action. -/
theorem grid_mode_clear_unreachable :
    ((navRun fixCfgTask3 "task".toList ["g".toList] [fixElem] fixGridOracle).trace.map
        (fun tr => (tr.before.grid_mode, tr.after.grid_mode, tr.exit, tr.dispatched))) =
      [(false, true, .cont, none), (true, true, .fault, none)] ∧
      (navRun fixCfgTask3 "task".toList ["g".toList] [fixElem]
          fixGridOracle).finalSt.grid_mode = true :=
  ⟨by decide, by decide⟩

end TaskDroid
namespace TaskDroid

theorem matchNameParens_some {l run content : PyStr}
    (h : matchNameParens l = some (run, content)) :
    run = l.takeWhile isWordChar ∧ run ≠ [] := by
  unfold matchNameParens at h
  dsimp only at h
  split at h
  · cases h
  · next hne =>
    split at h
    · split at h
      · cases h
        exact ⟨rfl, by simpa using hne⟩
      · cases h
    · cases h

theorem searchCmd_head {l r : PyStr} (h : searchCmd l = some r) :
    ∃ c t, r = c :: t ∧ isWordChar c = true := by
  induction l with
  | nil => cases h
  | cons c0 t0 ih =>
    unfold searchCmd at h
    cases hm : matchCmdAt (c0 :: t0) with
    | some r' =>
      rw [hm] at h
      cases h
      unfold matchCmdAt at hm
      dsimp only at hm
      split at hm
      · cases hm
      · next hne =>
        split at hm
        · split at hm
          · cases hm
            by_cases hw : isWordChar c0 = true
            · rw [List.takeWhile_cons, if_pos hw]
              exact ⟨c0, _, rfl, hw⟩
            · exfalso
              apply hne
              rw [List.takeWhile_cons, if_neg hw]
              rfl
          · cases hm
        · cases hm
    | none =>
      rw [hm] at h
      exact ih h

end TaskDroid
namespace TaskDroid

theorem actionStr_head {cleaned actionStr : PyStr}
    (h : (match searchCmd cleaned with
          | some c => some c
          | none =>
            let run := cleaned.takeWhile isWordChar
            if run.isEmpty then none else some run) = some actionStr) :
    ∃ c t, actionStr = c :: t ∧ isWordChar c = true := by
  cases hsc : searchCmd cleaned with
  | some c =>
    rw [hsc] at h
    cases h
    exact searchCmd_head hsc
  | none =>
    rw [hsc] at h
    dsimp only at h
    split at h
    · cases h
    · next hne =>
      cases h
      cases hcl : cleaned.takeWhile isWordChar with
      | nil =>
        rw [hcl] at hne
        exact absurd rfl hne
      | cons c0 t0 =>
        refine ⟨c0, t0, rfl, ?_⟩
        have : c0 ∈ cleaned.takeWhile isWordChar := by
          rw [hcl]
          exact List.mem_cons_self _ _
        exact List.mem_takeWhile_imp this

/-- C2: for every input string, `parse_action_response` either returns a
result whose `action_name` is nonempty — with thought and summary
defaulting to placeholder strings when their sections are absent (the
observation section is parsed the same way but only logged) — or returns
`None`; the model is a total function, mirroring that no operation in the
Python body raises. -/
theorem parser_total_function (s : PyStr) :
    parse_action_response s = none ∨
      ∃ r, parse_action_response s = some r ∧ r.action_name ≠ [] ∧
        (findCISub "thought:".toList s = none → r.thought = "No thought provided.".toList) ∧
        (findCISub "summary:".toList s = none → r.summary = "No summary provided.".toList) := by
  unfold parse_action_response
  cases hf : findCISub "action:".toList s with
  | none => exact Or.inl rfl
  | some i =>
    dsimp only
    split
    · exact Or.inl rfl
    · next actionStr heq =>
      right
      obtain ⟨c0, t0, rfl, hw⟩ := actionStr_head heq
      split
      · next run content hmn =>
        refine ⟨_, rfl, ?_, ?_, ?_⟩
        · obtain ⟨-, hne⟩ := matchNameParens_some hmn
          simpa [pyLower] using hne
        · intro ht
          show sectDefault (extractWindow "thought:".toList (some "action:".toList) s)
            "No thought provided.".toList = "No thought provided.".toList
          unfold extractWindow
          rw [ht]
          rfl
        · intro hsum
          show sectDefault (extractWindow "summary:".toList none s)
            "No summary provided.".toList = "No summary provided.".toList
          unfold extractWindow
          rw [hsum]
          rfl
      · next hmn =>
        refine ⟨_, rfl, ?_, ?_, ?_⟩
        · show pyStrip (pyLower (c0 :: t0)) ≠ []
          apply stripBothP_ne_nil (List.mem_cons_self (toLowerChar c0) (List.map toLowerChar t0))
          rw [space_toLowerChar]
          exact word_not_space hw
        · intro ht
          show sectDefault (extractWindow "thought:".toList (some "action:".toList) s)
            "No thought provided.".toList = "No thought provided.".toList
          unfold extractWindow
          rw [ht]
          rfl
        · intro hsum
          show sectDefault (extractWindow "summary:".toList none s)
            "No summary provided.".toList = "No summary provided.".toList
          unfold extractWindow
          rw [hsum]
          rfl

end TaskDroid

namespace TaskDroid

/-- C2 witness: the totality dichotomy at the spec's scenario input. -/
theorem parser_total_function_witness :
    parse_action_response "Action: tap(3)\nSummary: tapping login".toList = none ∨
      ∃ r, parse_action_response "Action: tap(3)\nSummary: tapping login".toList = some r ∧
        r.action_name ≠ [] ∧
        (findCISub "thought:".toList "Action: tap(3)\nSummary: tapping login".toList = none →
          r.thought = "No thought provided.".toList) ∧
        (findCISub "summary:".toList "Action: tap(3)\nSummary: tapping login".toList = none →
          r.summary = "No summary provided.".toList) :=
  parser_total_function "Action: tap(3)\nSummary: tapping login".toList

end TaskDroid
namespace TaskDroid

theorem takeWhile_eq_self_of_all {P : Char → Bool} :
    ∀ {l : PyStr}, (∀ x ∈ l, P x = true) → l.takeWhile P = l := by
  intro l h
  induction l with
  | nil => rfl
  | cons c t ih =>
    rw [List.takeWhile_cons, if_pos (h c (List.mem_cons_self _ _))]
    rw [ih (fun x hx => h x (List.mem_cons_of_mem _ hx))]

theorem takeWhile_append_stop {P : Char → Bool} {b : Char} (r : PyStr) :
    ∀ {n : PyStr}, (∀ x ∈ n, P x = true) → P b = false →
      (n ++ b :: r).takeWhile P = n := by
  intro n hn hb
  induction n with
  | nil =>
    rw [List.nil_append, List.takeWhile_cons, if_neg]
    rw [hb]
    simp
  | cons c t ih =>
    rw [List.cons_append, List.takeWhile_cons, if_pos (hn c (List.mem_cons_self _ _))]
    rw [ih (fun x hx => hn x (List.mem_cons_of_mem _ hx))]

theorem dropWhile_cons_neg {P : Char → Bool} {c : Char} (t : PyStr) (h : P c = false) :
    (c :: t).dropWhile P = c :: t := by
  rw [List.dropWhile_cons, if_neg]
  rw [h]
  simp

theorem stripBothP_eq_self_of {P : Char → Bool} {c d : Char} (m : PyStr)
    (hc : P c = false) (hd : P d = false) :
    stripBothP P (c :: (m ++ [d])) = c :: (m ++ [d]) := by
  unfold stripBothP
  rw [dropWhile_cons_neg _ hc]
  have h1 : (c :: (m ++ [d])).reverse = d :: (m.reverse ++ [c]) := by
    simp
  rw [h1, dropWhile_cons_neg _ hd, ← h1, List.reverse_reverse]

theorem reverse_concat_dropWhile (args : PyStr) :
    (args ++ [')']).reverse.dropWhile (fun c => !(c = ')')) = ')' :: args.reverse := by
  have h1 : (args ++ [')']).reverse = ')' :: args.reverse := by simp
  rw [h1, dropWhile_cons_neg]
  simp

end TaskDroid
namespace TaskDroid

theorem specArgValue_eq_cleanArg (nm p : PyStr) : cleanArg nm p = specArgValue nm p := rfl

theorem matchCmdAt_structured (name args : PyStr)
    (hname : name ≠ []) (hword : ∀ x ∈ name, isWordChar x = true) :
    matchCmdAt (name ++ '(' :: (args ++ [')'])) =
      some (name ++ '(' :: (args ++ [')'])) := by
  unfold matchCmdAt
  have hrun : (name ++ '(' :: (args ++ [')'])).takeWhile isWordChar = name :=
    takeWhile_append_stop _ hword (by decide)
  rw [hrun]
  rw [if_neg (by simpa using hname)]
  rw [List.drop_left]
  dsimp only
  rw [if_pos ⟨rfl, by simp⟩]
  rw [reverse_concat_dropWhile]
  simp

theorem matchNameParens_structured (name args : PyStr)
    (hname : name ≠ []) (hword : ∀ x ∈ name, isWordChar x = true) :
    matchNameParens (name ++ '(' :: (args ++ [')'])) = some (name, args) := by
  unfold matchNameParens
  have hrun : (name ++ '(' :: (args ++ [')'])).takeWhile isWordChar = name :=
    takeWhile_append_stop _ hword (by decide)
  rw [hrun]
  rw [if_neg (by simpa using hname)]
  rw [List.drop_left]
  rw [dropWhile_cons_neg _ (by decide)]
  dsimp only
  rw [if_pos ⟨rfl, by simp⟩]
  rw [reverse_concat_dropWhile]
  simp

end TaskDroid
namespace TaskDroid

theorem searchCmd_structured (name args : PyStr)
    (hname : name ≠ []) (hword : ∀ x ∈ name, isWordChar x = true) :
    searchCmd (name ++ '(' :: (args ++ [')'])) =
      some (name ++ '(' :: (args ++ [')'])) := by
  obtain ⟨c, t, rfl⟩ := List.exists_cons_of_ne_nil hname
  show searchCmd (c :: (t ++ '(' :: (args ++ [')']))) = _
  unfold searchCmd
  rw [show (c :: (t ++ '(' :: (args ++ [')']))) = (c :: t) ++ '(' :: (args ++ [')']) from rfl,
    matchCmdAt_structured (c :: t) args hname hword]

end TaskDroid
namespace TaskDroid

/-- C8: for an action line of the form `name(args)`, the parser lowercases
the name, splits the (stripped) argument text on commas, and processes each
stripped argument by the claimed rule (`specArgValue`): optional `label:`
prefix removal, quote/space stripping, and integer conversion exactly when
the token is purely numeric and the action is not `type_text`. -/
theorem action_argument_parsing (name args : PyStr)
    (hname : name ≠ []) (hword : ∀ x ∈ name, isWordChar x = true)
    (hargs : '\n' ∉ args) :
    ∃ r, parse_action_response ("Action: ".toList ++ name ++ '(' :: (args ++ [')'])) =
        some r ∧
      r.action_name = pyLower name ∧
      r.action_params = ((pySplit ',' (pyStrip args)).map pyStrip).map
        (specArgValue (pyLower name)) := by
  obtain ⟨c, t, rfl⟩ := List.exists_cons_of_ne_nil hname
  have hwc : isWordChar c = true := hword c (List.mem_cons_self _ _)
  have hc : isPySpace c = false := word_not_space hwc
  have hfind : findCISub "action:".toList
      ("Action: ".toList ++ (c :: t) ++ '(' :: (args ++ [')'])) = some 0 := rfl
  have hdrop : List.drop (0 + 7)
      ("Action: ".toList ++ (c :: t) ++ '(' :: (args ++ [')'])) =
        ' ' :: ((c :: t) ++ '(' :: (args ++ [')'])) := rfl
  have hdw : List.dropWhile isPySpace (' ' :: ((c :: t) ++ '(' :: (args ++ [')']))) =
      (c :: t) ++ '(' :: (args ++ [')']) := by
    rw [List.dropWhile_cons, if_pos (by decide)]
    exact dropWhile_cons_neg _ hc
  have htw : List.takeWhile (fun x => !decide (x = '\n'))
      ((c :: t) ++ '(' :: (args ++ [')'])) = (c :: t) ++ '(' :: (args ++ [')']) := by
    apply takeWhile_eq_self_of_all
    intro x hx
    have hxne : x ≠ '\n' := by
      rcases List.mem_cons.mp hx with rfl | hx1
      · intro he
        rw [he] at hwc
        exact absurd hwc (by decide)
      · rcases List.mem_append.mp hx1 with hx2 | hx3
        · have hxw := hword x (List.mem_cons_of_mem _ hx2)
          intro he
          rw [he] at hxw
          exact absurd hxw (by decide)
        · rcases List.mem_cons.mp hx3 with rfl | hx4
          · intro he
            cases he
          · rcases List.mem_append.mp hx4 with hx5 | hx6
            · exact fun he => hargs (he ▸ hx5)
            · rcases List.mem_singleton.mp hx6 with rfl
              intro he
              cases he
    simpa using hxne
  have hshape : (t ++ '(' :: (args ++ [')'])) = ((t ++ '(' :: args) ++ [')']) := by simp
  have hps : pyStrip ((c :: t) ++ '(' :: (args ++ [')'])) =
      (c :: t) ++ '(' :: (args ++ [')']) := by
    show pyStrip (c :: (t ++ '(' :: (args ++ [')']))) = c :: (t ++ '(' :: (args ++ [')']))
    rw [hshape]
    exact stripBothP_eq_self_of _ hc (by decide)
  have hcbs : (fun x => decide (x = '`' ∨ x = ' ')) c = false := by
    have hncs : ¬(c = '`' ∨ c = ' ') := by
      rintro (rfl | rfl) <;> exact absurd hwc (by decide)
    simpa using hncs
  have hsb : stripBothP (fun x => decide (x = '`' ∨ x = ' '))
      ((c :: t) ++ '(' :: (args ++ [')'])) = (c :: t) ++ '(' :: (args ++ [')']) := by
    show stripBothP _ (c :: (t ++ '(' :: (args ++ [')']))) = c :: (t ++ '(' :: (args ++ [')']))
    rw [hshape]
    exact stripBothP_eq_self_of _ hcbs (by decide)
  unfold parse_action_response
  rw [hfind]
  dsimp only
  rw [hdrop, hdw, htw, hps, hsb, searchCmd_structured (c :: t) args hname hword]
  dsimp only
  rw [matchNameParens_structured (c :: t) args hname hword]
  dsimp only
  exact ⟨_, rfl, rfl, rfl⟩

end TaskDroid
namespace TaskDroid

/-- C8 witness: the spec scenario `tap(3)` — name lowercased to `tap`, the
single argument coerced to the integer 3. -/
theorem action_argument_parsing_witness :
    ("tap".toList ≠ [] ∧ (∀ x ∈ "tap".toList, isWordChar x = true) ∧
        '\n' ∉ "3".toList) ∧
      ∃ r, parse_action_response
          ("Action: ".toList ++ "tap".toList ++ '(' :: ("3".toList ++ [')'])) = some r ∧
        r.action_name = pyLower "tap".toList ∧
        r.action_params = ((pySplit ',' (pyStrip "3".toList)).map pyStrip).map
          (specArgValue (pyLower "tap".toList)) :=
  ⟨⟨by decide, by decide, by decide⟩,
   action_argument_parsing "tap".toList "3".toList (by decide) (by decide) (by decide)⟩

end TaskDroid
